import Mathlib

deriving instance DecidableEq for Except

/-!
Verification of the response-validation and statistical-aggregation pipeline
of the meteo API module (`src/module_1/module_1_meteo_api.py`).

The Python dictionaries are modelled as follows: the `daily` dictionary is a
`RawDaily` holding an optional `time` entry (a list of date strings) together
with the remaining entries as an ordered association list from composite key
to a list of nullable rational readings; the top-level response is a
`Response` holding an optional `daily` dictionary.  Numeric readings are
rationals.  The in-place `data.pop("time")` mutation is made explicit:
`process_data` returns both the result and the post-state of its input
dictionary.  The `std` value, computed in the source as `radicand ** 0.5`, is
represented exactly: each emitted row stores the radicand (`variance`) and
`Row.std` is its real square root.
-/

namespace Meteo

/-- The configured base climate variables (`VARIABLES.split(",")` in the source). -/
def VARIABLES : List String :=
  ["temperature_2m_mean", "precipitation_sum", "soil_moisture_0_to_10cm_mean"]

/-- The configured climate model identifiers (`MODELS.split(",")` in the source). -/
def MODELS : List String :=
  ["CMCC_CM2_VHR4", "FGOALS_f3_H", "HiRAM_SIT_HR", "MRI_AGCM3_2_S",
   "EC_Earth3P_HR", "MPI_ESM1_2_XR", "NICAM16_8S"]

/-- Composite `variable_model` keys, variable-major order, as in the source's
list comprehension `VARIABLES_MODELS`. -/
def VARIABLES_MODELS : List String :=
  VARIABLES.flatMap (fun v => MODELS.map (fun m => v ++ "_" ++ m))

/-- The `daily` dictionary of a response: an optional `time` entry (a list of
date strings) together with the remaining entries, each mapping a key to a
list of nullable numeric readings, in insertion order as in a Python dict. -/
structure RawDaily where
  time : Option (List String)
  entries : List (String × List (Option ℚ))
deriving DecidableEq

/-- A parsed API response; only the top-level `daily` key is ever accessed. -/
structure Response where
  daily : Option RawDaily
deriving DecidableEq

/-- Python's `key.startswith(v)`: `v` is a character prefix of `key`. -/
def startsWith (v key : String) : Bool := v.data.isPrefixOf key.data

/-- Python dict lookup `entries[k]` (first matching binding). -/
def lookupEntry (entries : List (String × List (Option ℚ))) (k : String) :
    Option (List (Option ℚ)) :=
  (entries.find? (fun e => e.1 == k)).map (fun e => e.2)

/-- Python dict membership test `k in entries`. -/
def containsKey (entries : List (String × List (Option ℚ))) (k : String) : Bool :=
  (entries.find? (fun e => e.1 == k)).isSome

/-- `validate_response_schema` from the source: checks run in the source's
order, failing with the source's message on the first violated condition. -/
def validate_response_schema (resp : Response) : Except String Unit :=
  match resp.daily with
  | none => .error "Daily data not found in response."
  | some d =>
    match VARIABLES_MODELS.find? (fun v => !containsKey d.entries v) with
    | some v => .error ("Variable " ++ v ++ " not found in response.")
    | none =>
      match d.time with
      | none => .error "Time data not found in response."
      | some tss =>
        if tss.length = 0 then .error "No time data found in response."
        else
          match VARIABLES_MODELS.find?
              (fun v => ((lookupEntry d.entries v).getD []).length != tss.length) with
          | some v => .error ("Data length mismatch for variable " ++ v ++ ".")
          | none => .ok ()

/-- The arithmetic mean `sum(l) / len(l)` computed at line 125 of the source. -/
def listMean (l : List ℚ) : ℚ := l.sum / l.length

/-- The radicand of the `std` computation at lines 126-129 of the source:
`sum([(x - avg) ** 2 for x in l]) / len(l)` (population variance). -/
def listPopVar (l : List ℚ) : ℚ :=
  (l.map (fun x => (x - listMean l) ^ 2)).sum / l.length

/-- One emitted row `{"timestamp": ts, "mean": avg, "std": std}`; `std` is
stored exactly through its radicand `variance` (see `Row.std`). -/
structure Row where
  timestamp : String
  mean : ℚ
  variance : ℚ
deriving DecidableEq, Inhabited

/-- The `std` value of a row: the square root taken by `** 0.5` in the source. -/
noncomputable def Row.std (r : Row) : ℝ := Real.sqrt r.variance

/-- The inner collection loop (lines 111-119): walk the remaining entries in
order, and for every key that starts with the variable's prefix take the
reading at `i` (substituting 0 for a null reading).  Returns `none` when a
matching list is too short (Python raises `IndexError`). -/
def collectVar (v : String) (i : Nat) :
    List (String × List (Option ℚ)) → Option (List ℚ)
  | [] => some []
  | e :: rest =>
    if startsWith v e.1 then
      match e.2.get? i with
      | none => none
      | some val =>
        match collectVar v i rest with
        | none => none
        | some l => some (val.getD 0 :: l)
    else collectVar v i rest

/-- Rows for one variable over the timestamps starting at index `i`
(lines 107-135): one row per index whose collected list is non-empty;
`none` on any collection failure. -/
def rowsForAux (v : String) (entries : List (String × List (Option ℚ))) :
    Nat → List String → Option (List Row)
  | _, [] => some []
  | i, ts :: rest =>
    match collectVar v i entries with
    | none => none
    | some [] => rowsForAux v entries (i + 1) rest
    | some l =>
      match rowsForAux v entries (i + 1) rest with
      | none => none
      | some rows =>
        some ({ timestamp := ts, mean := listMean l, variance := listPopVar l } :: rows)

/-- The per-variable output dictionary `per_variable_dfs`, keyed in
`VARIABLES` order; `none` as soon as any variable's rows fail. -/
def processVars (entries : List (String × List (Option ℚ))) (tss : List String) :
    List String → Option (List (String × List Row))
  | [] => some []
  | v :: vs =>
    match rowsForAux v entries 0 tss with
    | none => none
    | some rows =>
      match processVars entries tss vs with
      | none => none
      | some rest => some ((v, rows) :: rest)

/-- The outcome of `process_data`: a result dictionary, or one of the two
`None`-returning paths (distinguished by the message the source prints). -/
inductive ProcResult where
  | ok : List (String × List Row) → ProcResult
  | noData : ProcResult
  | failed : ProcResult
deriving DecidableEq

/-- `process_data` from the source (lines 94-142).  The pair's second
component is the post-state of the input dictionary: `data.pop("time")`
removes the `time` binding in place.  An empty dictionary is falsy and yields
`noData` ("No data received."); a missing `time` key (KeyError from `pop`) or
any later computation error yields `failed` (the caught-exception path). -/
def process_data (d : RawDaily) : ProcResult × RawDaily :=
  if d.time = none ∧ d.entries = [] then (.noData, d)
  else
    match d.time with
    | none => (.failed, d)
    | some tss =>
      match processVars d.entries tss VARIABLES with
      | none => (.failed, ⟨none, d.entries⟩)
      | some out => (.ok out, ⟨none, d.entries⟩)

/-- Spec-side: the values collected for variable `v` at time index `i` — the
reading at `i` of every entry whose key starts with `v`, null replaced by 0. -/
def specCollect (v : String) (entries : List (String × List (Option ℚ)))
    (i : Nat) : List ℚ :=
  (entries.filter (fun e => startsWith v e.1)).map (fun e => (e.2.getD i none).getD 0)

/-- Modelled from the spec: rounding a value to 4 decimal places. -/
def round4 (q : ℚ) : ℚ := round (q * 10000) / 10000

/-- Lexicographic order on character lists (used to compare date strings). -/
def charLe : List Char → List Char → Bool
  | [], _ => true
  | _ :: _, [] => false
  | a :: as, b :: bs => if a < b then true else if b < a then false else charLe as bs

/-- Modelled from the spec: a row sequence sorted by parsed date ascending.
For ISO `YYYY-MM-DD` date strings, lexicographic character order coincides
with chronological order, so each date must be at most the next one. -/
def sortedByDateAsc : List Row → Bool
  | [] => true
  | [_] => true
  | a :: b :: rest => charLe a.timestamp.data b.timestamp.data && sortedByDateAsc (b :: rest)

/-- The rows the aggregator produces for variable `v` when every index's
collected list is non-empty: one row per timestamp, in input order. -/
def specRowsFrom (v : String) (entries : List (String × List (Option ℚ))) :
    Nat → List String → List Row
  | _, [] => []
  | i, ts :: rest =>
    { timestamp := ts, mean := listMean (specCollect v entries i),
      variance := listPopVar (specCollect v entries i) } :: specRowsFrom v entries (i + 1) rest

/-! Concrete dictionaries used as inputs and witnesses. -/

/-- All 21 configured composite keys, each with the single reading 1. -/
def fullEntries : List (String × List (Option ℚ)) :=
  VARIABLES_MODELS.map (fun v => (v, [some 1]))

/-- A validated `daily` dictionary: one date, all composite keys reading 1. -/
def dFull : RawDaily := ⟨some ["2021-01-01"], fullEntries⟩

/-- The input dictionary of the repository's `TestProcessData.runTest`. -/
def testInput : RawDaily :=
  ⟨some ["2021-01-01", "2021-01-01", "2021-01-02", "2021-01-02"],
   [("temperature_2m_mean", [some 10, some 15, some 28, some 20]),
    ("precipitation_sum", [some 0, some 5, some 2, some 9]),
    ("soil_moisture_0_to_10cm_mean", [some (1/2), some (1/5), some (7/10), some (3/5)])]⟩

/-- A validated input whose temperature readings average to `1/7`. -/
def dSeventh : RawDaily :=
  ⟨some ["2021-01-01"],
   VARIABLES_MODELS.map (fun v =>
     (v, [some (if v = "temperature_2m_mean_CMCC_CM2_VHR4" then 1 else 0)]))⟩

/-- A validated input whose dates appear in descending order. -/
def dDesc : RawDaily :=
  ⟨some ["2021-01-02", "2021-01-01"],
   VARIABLES_MODELS.map (fun v => (v, [some 1, some 2]))⟩

/-- Every composite key except `precipitation_sum_FGOALS_f3_H`; no `time`. -/
def dMissingOne : RawDaily :=
  ⟨none,
   (VARIABLES_MODELS.filter (fun v => v != "precipitation_sum_FGOALS_f3_H")).map
     (fun v => (v, [some 1]))⟩

/-- All composite keys, but no `time` entry. -/
def dNoTime : RawDaily := ⟨none, fullEntries⟩

/-- All composite keys (length 1), `time` empty. -/
def dEmptyTime : RawDaily := ⟨some [], fullEntries⟩

/-- All composite keys of length 1, `time` of length 2. -/
def dMismatch : RawDaily := ⟨some ["2021-01-01", "2021-01-02"], fullEntries⟩

/-- Two temperature model keys with readings `[10]` and `[null]`. -/
def dNullDemo : RawDaily :=
  ⟨some ["2021-01-01"],
   [("temperature_2m_mean_a", [some 10]), ("temperature_2m_mean_b", [none])]⟩

/-- One temperature key whose list is shorter than `time`. -/
def dShort : RawDaily :=
  ⟨some ["2021-01-01", "2021-01-02"], [("temperature_2m_mean_X", [some 1])]⟩

/-- Exactly one temperature key, with a null second reading. -/
def dSingle : RawDaily :=
  ⟨some ["2021-01-01", "2021-01-02"], [("temperature_2m_mean_A", [some 10, none])]⟩

/-- Modelled from the spec (§8): the validator succeeds exactly when `daily`
is present, contains a non-empty `time` sequence, and every configured
composite key is present with a sequence of `time`'s length. -/
def specValidResponse (resp : Response) : Prop :=
  ∃ d, resp.daily = some d ∧ ∃ tss, d.time = some tss ∧ tss ≠ [] ∧
    ∀ v ∈ VARIABLES_MODELS, ∃ vs, lookupEntry d.entries v = some vs ∧
      vs.length = tss.length

/-! Helper lemmas about the dictionary primitives. -/

lemma find?_first {α : Type} [DecidableEq α] {p : α → Bool} {l : List α} {k : α}
    (hk : k ∈ l) (hpk : p k = true) (ho : ∀ a ∈ l, a ≠ k → p a = false) :
    l.find? p = some k := by
  induction l with
  | nil => cases hk
  | cons a as ih =>
    by_cases ha : a = k
    · subst ha
      simp [List.find?_cons_of_pos _ hpk]
    · have hpa : p a = false := ho a (List.mem_cons_self a as) ha
      have hk' : k ∈ as := by
        rcases List.mem_cons.mp hk with h | h
        · exact absurd h.symm ha
        · exact h
      rw [List.find?_cons_of_neg _ (by simp [hpa])]
      exact ih hk' (fun x hx hxk => ho x (List.mem_cons_of_mem _ hx) hxk)

lemma lookupEntry_some {entries : List (String × List (Option ℚ))} {k : String}
    {vs : List (Option ℚ)} (h : lookupEntry entries k = some vs) :
    ∃ e ∈ entries, e.1 = k ∧ e.2 = vs := by
  unfold lookupEntry at h
  rcases hf : entries.find? (fun e => e.1 == k) with _ | e
  · rw [hf] at h; cases h
  · rw [hf] at h
    have hp : (e.1 == k) = true := by simpa using List.find?_some hf
    exact ⟨e, List.mem_of_find?_eq_some hf, eq_of_beq hp, Option.some.inj h⟩

lemma containsKey_iff {entries : List (String × List (Option ℚ))} {k : String} :
    containsKey entries k = true ↔ ∃ vs, lookupEntry entries k = some vs := by
  unfold containsKey lookupEntry
  rcases hf : entries.find? (fun e => e.1 == k) with _ | e <;> rw [hf] <;> simp

lemma validate_ok_iff (resp : Response) :
    validate_response_schema resp = .ok () ↔ specValidResponse resp := by
  unfold validate_response_schema specValidResponse
  split
  · next hd =>
    constructor
    · intro h; cases h
    · rintro ⟨d', hd', _⟩
      rw [hd] at hd'; cases hd'
  · next d hd =>
    split
    · next v hf =>
      constructor
      · intro h; cases h
      · rintro ⟨d', hd', tss, ht, hne, hall⟩
        obtain rfl : d = d' := Option.some.inj (hd ▸ hd')
        rcases hall v (List.mem_of_find?_eq_some hf) with ⟨vs, hvs, _⟩
        have hp := List.find?_some hf
        have hc : containsKey d.entries v = true := containsKey_iff.mpr ⟨vs, hvs⟩
        rw [hc] at hp
        cases hp
    · next hf =>
      have hall : ∀ v ∈ VARIABLES_MODELS, containsKey d.entries v = true := by
        intro v hv
        have := List.find?_eq_none.mp hf v hv
        simpa using this
      split
      · next ht =>
        constructor
        · intro h; cases h
        · rintro ⟨d', hd', tss, ht', _⟩
          obtain rfl : d = d' := Option.some.inj (hd ▸ hd')
          rw [ht] at ht'; cases ht'
      · next tss ht =>
        split
        · next hlen =>
          constructor
          · intro h; cases h
          · rintro ⟨d', hd', tss', ht', hne, _⟩
            obtain rfl : d = d' := Option.some.inj (hd ▸ hd')
            obtain rfl : tss = tss' := Option.some.inj (ht ▸ ht')
            exact (hne (List.length_eq_zero.mp hlen)).elim
        · next hlen =>
          split
          · next v hm =>
            constructor
            · intro h; cases h
            · rintro ⟨d', hd', tss', ht', _, hall'⟩
              obtain rfl : d = d' := Option.some.inj (hd ▸ hd')
              obtain rfl : tss = tss' := Option.some.inj (ht ▸ ht')
              rcases hall' v (List.mem_of_find?_eq_some hm) with ⟨vs, hvs, hlen'⟩
              have hp := List.find?_some hm
              rw [hvs] at hp
              simp [hlen'] at hp
          · next hm =>
            constructor
            · intro _
              refine ⟨d, hd, tss, ht, fun hnil => hlen (by simp [hnil]), ?_⟩
              intro v hv
              rcases containsKey_iff.mp (hall v hv) with ⟨vs, hvs⟩
              refine ⟨vs, hvs, ?_⟩
              have := List.find?_eq_none.mp hm v hv
              simpa [hvs] using this
            · intro _; rfl

/-! Lemmas about the aggregation loops. -/

lemma collectVar_eq_spec {v : String} {i : Nat} :
    ∀ (entries : List (String × List (Option ℚ))),
    (∀ e ∈ entries, startsWith v e.1 = true → i < e.2.length) →
    collectVar v i entries = some (specCollect v entries i) := by
  intro entries
  induction entries with
  | nil => intro _; rfl
  | cons e rest ih =>
    intro h
    have hrest := ih (fun e' he' hp' => h e' (List.mem_cons_of_mem _ he') hp')
    by_cases hp : startsWith v e.1 = true
    · have hlt : i < e.2.length := h e (List.mem_cons_self e rest) hp
      have hval : e.2.get? i = some (e.2.get ⟨i, hlt⟩) := List.get?_eq_get hlt
      have hfil : List.filter (fun e => startsWith v e.1) (e :: rest) =
          e :: List.filter (fun e => startsWith v e.1) rest := by
        simp [List.filter_cons, hp]
      unfold collectVar specCollect
      unfold specCollect at hrest
      simp only [if_pos hp, hval, hrest, hfil, List.map_cons,
        List.getD_eq_get?, Option.getD_some, Option.some.injEq]
    · have hfil : List.filter (fun e => startsWith v e.1) (e :: rest) =
          List.filter (fun e => startsWith v e.1) rest := by
        simp [List.filter_cons, show startsWith v e.1 = false by simpa using hp]
      unfold collectVar specCollect
      unfold specCollect at hrest
      simp only [if_neg hp, hrest, hfil]

lemma collectVar_bound {v : String} {i : Nat} :
    ∀ (entries : List (String × List (Option ℚ))) (l : List ℚ),
    collectVar v i entries = some l →
    ∀ e ∈ entries, startsWith v e.1 = true → i < e.2.length := by
  intro entries
  induction entries with
  | nil => intro l _ e he; cases he
  | cons a rest ih =>
    intro l h e he hp
    unfold collectVar at h
    by_cases hpa : startsWith v a.1 = true
    · rw [if_pos hpa] at h
      rcases hget : a.2.get? i with _ | val
      · rw [hget] at h; cases h
      · rw [hget] at h
        rcases List.mem_cons.mp he with rfl | he'
        · obtain ⟨hlt, -⟩ := List.get?_eq_some.mp hget
          exact hlt
        · rcases hrest : collectVar v i rest with _ | l'
          · rw [hrest] at h; cases h
          · exact ih l' hrest e he' hp
    · rw [if_neg hpa] at h
      rcases List.mem_cons.mp he with rfl | he'
      · exact absurd hp hpa
      · exact ih l h e he' hp

lemma rowsForAux_some_collect {v : String} {entries : List (String × List (Option ℚ))} :
    ∀ (tss : List String) (i0 : Nat) (rows : List Row),
    rowsForAux v entries i0 tss = some rows →
    ∀ k < tss.length, ∃ l, collectVar v (i0 + k) entries = some l := by
  intro tss
  induction tss with
  | nil => intro i0 rows _ k hk; cases hk
  | cons ts rest ih =>
    intro i0 rows h k hk
    unfold rowsForAux at h
    rcases hc : collectVar v i0 entries with _ | l
    · simp only [hc] at h
      cases h
    · rcases l with _ | ⟨x, xs⟩
      · simp only [hc] at h
        cases k with
        | zero => exact ⟨[], by simpa using hc⟩
        | succ k' =>
          rw [show i0 + (k' + 1) = i0 + 1 + k' from by omega]
          exact ih (i0 + 1) rows h k' (Nat.lt_of_succ_lt_succ hk)
      · simp only [hc] at h
        rcases hr : rowsForAux v entries (i0 + 1) rest with _ | rows'
        · simp only [hr] at h
          cases h
        · cases k with
          | zero => exact ⟨x :: xs, by simpa using hc⟩
          | succ k' =>
            rw [show i0 + (k' + 1) = i0 + 1 + k' from by omega]
            exact ih (i0 + 1) rows' hr k' (Nat.lt_of_succ_lt_succ hk)

lemma rowsForAux_eq_spec {v : String} {entries : List (String × List (Option ℚ))} :
    ∀ (tss : List String) (i0 : Nat),
    (∀ k < tss.length, collectVar v (i0 + k) entries = some (specCollect v entries (i0 + k)) ∧
      specCollect v entries (i0 + k) ≠ []) →
    rowsForAux v entries i0 tss = some (specRowsFrom v entries i0 tss) := by
  intro tss
  induction tss with
  | nil => intro i0 _; rfl
  | cons ts rest ih =>
    intro i0 h
    obtain ⟨hc, hne⟩ := h 0 (Nat.succ_pos _)
    rw [Nat.add_zero] at hc hne
    have hrest := ih (i0 + 1) (fun k hk => by
      have hx := h (k + 1) (Nat.succ_lt_succ hk)
      rwa [show i0 + (k + 1) = i0 + 1 + k from by omega] at hx)
    obtain ⟨x, l, hcons⟩ := List.exists_cons_of_ne_nil hne
    unfold rowsForAux
    simp only [hc, hcons, hrest, specRowsFrom]

lemma specRowsFrom_map_timestamp {v : String} {entries : List (String × List (Option ℚ))} :
    ∀ (tss : List String) (i0 : Nat),
    (specRowsFrom v entries i0 tss).map Row.timestamp = tss := by
  intro tss
  induction tss with
  | nil => intro _; rfl
  | cons ts rest ih => intro i0; simp [specRowsFrom, ih]

lemma specRowsFrom_getD {v : String} {entries : List (String × List (Option ℚ))} :
    ∀ (tss : List String) (i0 k : Nat), k < tss.length →
    (specRowsFrom v entries i0 tss).getD k default =
      { timestamp := tss.getD k "", mean := listMean (specCollect v entries (i0 + k)),
        variance := listPopVar (specCollect v entries (i0 + k)) } := by
  intro tss
  induction tss with
  | nil => intro _ k hk; cases hk
  | cons ts rest ih =>
    intro i0 k hk
    cases k with
    | zero => simp [specRowsFrom]
    | succ k' =>
      simp only [specRowsFrom, List.getD_cons_succ]
      rw [show i0 + (k' + 1) = i0 + 1 + k' from by omega]
      exact ih (i0 + 1) k' (Nat.lt_of_succ_lt_succ hk)

lemma processVars_eq {entries : List (String × List (Option ℚ))} {tss : List String} :
    ∀ (vl : List String),
    (∀ v ∈ vl, rowsForAux v entries 0 tss = some (specRowsFrom v entries 0 tss)) →
    processVars entries tss vl = some (vl.map fun v => (v, specRowsFrom v entries 0 tss)) := by
  intro vl
  induction vl with
  | nil => intro _; rfl
  | cons v vs ih =>
    intro h
    unfold processVars
    rw [h v (List.mem_cons_self _ _), ih (fun v' hv' => h v' (List.mem_cons_of_mem _ hv'))]
    rfl

lemma processVars_mem {entries : List (String × List (Option ℚ))} {tss : List String} :
    ∀ (vl : List String) (out : List (String × List Row)),
    processVars entries tss vl = some out →
    ∀ p ∈ out, rowsForAux p.1 entries 0 tss = some p.2 := by
  intro vl
  induction vl with
  | nil =>
    intro out h p hp
    obtain rfl : ([] : List (String × List Row)) = out := Option.some.inj h
    cases hp
  | cons v vs ih =>
    intro out h p hp
    unfold processVars at h
    split at h
    · cases h
    · next rows hr =>
      split at h
      · cases h
      · next rest hrest =>
        obtain rfl : (v, rows) :: rest = out := Option.some.inj h
        rcases List.mem_cons.mp hp with rfl | hp'
        · simpa using hr
        · exact ih rest hrest p hp'

lemma lookup_map_self {f : String → List Row} :
    ∀ (vl : List String) (v : String), v ∈ vl →
    (vl.map fun v => (v, f v)).lookup v = some (f v) := by
  intro vl
  induction vl with
  | nil => intro v hv; cases hv
  | cons a as ih =>
    intro v hv
    by_cases hva : v = a
    · subst hva; simp [List.lookup]
    · have hv' : v ∈ as := by
        rcases List.mem_cons.mp hv with rfl | h
        · exact absurd rfl hva
        · exact h
      have hbeq : (v == a) = false := beq_eq_false_iff_ne.mpr hva
      simp only [List.map_cons, List.lookup, hbeq]
      exact ih v hv'

lemma lookup_some_mem {β : Type} :
    ∀ (l : List (String × β)) (k : String) (b : β),
    List.lookup k l = some b → (k, b) ∈ l := by
  intro l
  induction l with
  | nil => intro k b h; cases h
  | cons e rest ih =>
    intro k b h
    obtain ⟨a, c⟩ := e
    simp only [List.lookup] at h
    split at h
    · next heq =>
      obtain rfl : c = b := Option.some.inj h
      rw [eq_of_beq heq]
      exact List.mem_cons_self _ _
    · exact List.mem_cons_of_mem _ (ih k b h)

lemma good_collect {v : String} {entries : List (String × List (Option ℚ))}
    {tss : List String}
    (hlen : ∀ e ∈ entries, e.2.length = tss.length)
    (hmatch : ∃ e ∈ entries, startsWith v e.1 = true) :
    ∀ k < tss.length, collectVar v k entries = some (specCollect v entries k) ∧
      specCollect v entries k ≠ [] := by
  intro k hk
  constructor
  · exact collectVar_eq_spec entries (fun e he _ => by rw [hlen e he]; exact hk)
  · obtain ⟨e, he, hp⟩ := hmatch
    have hmem : e ∈ entries.filter (fun e => startsWith v e.1) :=
      List.mem_filter.mpr ⟨he, hp⟩
    intro hnil
    unfold specCollect at hnil
    rw [List.map_eq_nil_iff] at hnil
    rw [hnil] at hmem
    cases hmem

lemma matching_entry {d : RawDaily}
    (hall : ∀ v ∈ VARIABLES_MODELS, containsKey d.entries v = true) :
    ∀ v ∈ VARIABLES, ∃ e ∈ d.entries, startsWith v e.1 = true := by
  intro v hv
  have pick : ∀ key, key ∈ VARIABLES_MODELS → startsWith v key = true →
      ∃ e ∈ d.entries, startsWith v e.1 = true := by
    intro key hkey hpk
    rcases containsKey_iff.mp (hall key hkey) with ⟨vs, hvs⟩
    rcases lookupEntry_some hvs with ⟨e, he, he1, -⟩
    exact ⟨e, he, by rw [he1]; exact hpk⟩
  have hv3 : v = "temperature_2m_mean" ∨ v = "precipitation_sum" ∨
      v = "soil_moisture_0_to_10cm_mean" := by simpa [VARIABLES] using hv
  rcases hv3 with rfl | rfl | rfl
  · exact pick "temperature_2m_mean_CMCC_CM2_VHR4" (by decide) (by decide)
  · exact pick "precipitation_sum_CMCC_CM2_VHR4" (by decide) (by decide)
  · exact pick "soil_moisture_0_to_10cm_mean_CMCC_CM2_VHR4" (by decide) (by decide)

lemma listMean_singleton (x : ℚ) : listMean [x] = x := by
  simp [listMean]

lemma listPopVar_singleton (x : ℚ) : listPopVar [x] = 0 := by
  norm_num [listPopVar, listMean]

lemma process_ok_spec {d : RawDaily} {tss : List String}
    (hval : validate_response_schema ⟨some d⟩ = .ok ())
    (htime : d.time = some tss)
    (hlen : ∀ e ∈ d.entries, e.2.length = tss.length) :
    (process_data d).fst =
      .ok (VARIABLES.map fun v => (v, specRowsFrom v d.entries 0 tss)) := by
  obtain ⟨d', hd', tss', ht', hne, hall⟩ := (validate_ok_iff _).mp hval
  obtain rfl : d = d' := Option.some.inj hd'
  obtain rfl : tss = tss' := Option.some.inj (htime ▸ ht')
  have hcontains : ∀ v ∈ VARIABLES_MODELS, containsKey d.entries v = true := by
    intro v hv
    rcases hall v hv with ⟨vs, hvs, -⟩
    exact containsKey_iff.mpr ⟨vs, hvs⟩
  have hmatch := matching_entry hcontains
  have hrows : ∀ v ∈ VARIABLES,
      rowsForAux v d.entries 0 tss = some (specRowsFrom v d.entries 0 tss) := by
    intro v hv
    apply rowsForAux_eq_spec
    intro k hk
    rw [Nat.zero_add]
    exact good_collect hlen (hmatch v hv) k hk
  have hcond : ¬(d.time = none ∧ d.entries = []) := by
    rintro ⟨h1, -⟩
    rw [htime] at h1
    cases h1
  unfold process_data
  rw [if_neg hcond]
  simp only [htime, processVars_eq VARIABLES hrows]

lemma process_data_snd_eq (d : RawDaily) (h : ¬(d.time = none ∧ d.entries = [])) :
    (process_data d).snd = ⟨none, d.entries⟩ := by
  obtain ⟨dt, de⟩ := d
  unfold process_data
  rw [if_neg h]
  rcases ht : dt with _ | tss
  · simp at h ⊢
  · simp only []
    rcases hpv : processVars de tss VARIABLES with _ | out <;> simp [hpv]

/-! The claims. -/

/-- C5: `validate_response_schema` returns without raising if and only if the
`daily` key is present, `daily` contains a non-empty `time` sequence, and
every configured composite key is present with a sequence of `time`'s
length. -/
theorem c5_validate_ok_iff (resp : Response) :
    validate_response_schema resp = .ok () ↔ specValidResponse resp :=
  validate_ok_iff resp

/-- C6: the validator checks run in the source's fixed order and raise on the
first failing condition with a message naming it: `{}` reports missing daily
data; a response missing exactly one composite key names that key (whatever
the state of `time`, showing the key check precedes the time checks); a
missing `time` is reported before length mismatches; an empty `time` is
reported before length mismatches. -/
theorem c6_validate_order_and_messages :
    validate_response_schema ⟨none⟩ = .error "Daily data not found in response." ∧
    (∀ (d : RawDaily) (k : String), k ∈ VARIABLES_MODELS →
      containsKey d.entries k = false →
      (∀ v ∈ VARIABLES_MODELS, v ≠ k → containsKey d.entries v = true) →
      validate_response_schema ⟨some d⟩ =
        .error ("Variable " ++ k ++ " not found in response.")) ∧
    validate_response_schema ⟨some dNoTime⟩ = .error "Time data not found in response." ∧
    validate_response_schema ⟨some dEmptyTime⟩ = .error "No time data found in response." ∧
    validate_response_schema ⟨some dMismatch⟩ =
      .error ("Data length mismatch for variable " ++ "temperature_2m_mean_CMCC_CM2_VHR4" ++ ".") := by
  refine ⟨by decide, ?_, by decide, by decide, by decide⟩
  intro d k hk hmiss hothers
  have hf : VARIABLES_MODELS.find? (fun v => !containsKey d.entries v) = some k := by
    apply find?_first hk
    · simp [hmiss]
    · intro a ha hak
      simp [hothers a ha hak]
  unfold validate_response_schema
  simp only [hf]

/-- Witness for C6: a concrete daily dictionary missing exactly the composite
key `precipitation_sum_FGOALS_f3_H` is rejected naming that key. -/
theorem c6_validate_order_and_messages_witness :
    validate_response_schema ⟨some dMissingOne⟩ =
      .error ("Variable " ++ "precipitation_sum_FGOALS_f3_H" ++ " not found in response.") :=
  c6_validate_order_and_messages.2.1 dMissingOne "precipitation_sum_FGOALS_f3_H"
    (by decide) (by decide) (by decide)

/-- C8: on every non-empty input, `process_data` mutates its input dictionary
in place exactly by removing the `time` binding: the post-state has no `time`
and keeps every other key and its sequence unchanged. -/
theorem c8_mutates_only_time (d : RawDaily) (h : ¬(d.time = none ∧ d.entries = [])) :
    (process_data d).snd = ⟨none, d.entries⟩ :=
  process_data_snd_eq d h

/-- Witness for C8 at a concrete non-empty input. -/
theorem c8_mutates_only_time_witness :
    ¬(dNullDemo.time = none ∧ dNullDemo.entries = []) ∧
    (process_data dNullDemo).snd = ⟨none, dNullDemo.entries⟩ :=
  ⟨by decide, c8_mutates_only_time dNullDemo (by decide)⟩

/-- C9: `process_data` never propagates an error: the empty (falsy) input
yields the no-data signal, and computation errors (a missing `time` key, an
out-of-range read caused by a short sequence) are converted into the failed
signal. -/
theorem c9_no_exception_signals :
    (process_data ⟨none, []⟩).fst = .noData ∧
    (process_data ⟨none, [("a", [some 1])]⟩).fst = .failed ∧
    (process_data dShort).fst = .failed := by
  refine ⟨by decide, by decide, by decide⟩

/-- C2 (amended): aggregation is a function of its input value, but it is not
idempotent on the mapping itself: the first application removes `time`, so a
second application to the same mapping (still holding the metric keys)
returns the processing-failed signal instead of the first output. -/
theorem c2_second_application_fails (d : RawDaily) (h : d.entries ≠ []) :
    (process_data (process_data d).snd).fst = .failed := by
  have hcond : ¬(d.time = none ∧ d.entries = []) := by
    rintro ⟨-, h2⟩
    exact h h2
  have hsnd : (process_data d).snd = ⟨none, d.entries⟩ := process_data_snd_eq d hcond
  rw [hsnd]
  unfold process_data
  rw [if_neg (by rintro ⟨-, h2⟩; exact h h2)]

/-- Witness for the amended C2 at a concrete input. -/
theorem c2_second_application_fails_witness :
    dNullDemo.entries ≠ [] ∧ (process_data (process_data dNullDemo).snd).fst = .failed :=
  ⟨by decide, c2_second_application_fails dNullDemo (by decide)⟩

/-- C2 counterexample: on a concrete validated input, running `process_data`
twice in sequence on the same mapping does not give identical output — the
first run returns rows, the second returns the failed signal, because the
first run removed `time` from the mapping. -/
theorem c2_not_idempotent_counterexample :
    validate_response_schema ⟨some dFull⟩ = .ok () ∧
    (process_data (process_data dFull).snd).fst ≠ (process_data dFull).fst := by
  refine ⟨by decide, ?_⟩
  have h1 : (process_data dFull).fst =
      .ok (VARIABLES.map fun v => (v, specRowsFrom v dFull.entries 0 ["2021-01-01"])) :=
    process_ok_spec (by decide) rfl (by decide)
  have h2 : (process_data (process_data dFull).snd).fst = .failed := by
    rw [process_data_snd_eq dFull (by decide)]
    unfold process_data
    rw [if_neg (by decide)]
  rw [h1, h2]
  simp

/-- C4 (amended): for every validated input all of whose sequences have the
time sequence's length, the aggregator emits exactly one row per original
time index for each base metric — duplicate date strings give separate
rows — and the rows appear in the original time-index order (no sorting by
parsed date is performed). -/
theorem c4_rows_in_input_order (d : RawDaily) (tss : List String)
    (hval : validate_response_schema ⟨some d⟩ = .ok ())
    (htime : d.time = some tss)
    (hlen : ∀ e ∈ d.entries, e.2.length = tss.length) :
    ∃ out, (process_data d).fst = .ok out ∧
      ∀ v ∈ VARIABLES, ∃ rows, out.lookup v = some rows ∧
        rows.map Row.timestamp = tss := by
  refine ⟨_, process_ok_spec hval htime hlen, ?_⟩
  intro v hv
  exact ⟨_, lookup_map_self VARIABLES v hv, specRowsFrom_map_timestamp tss 0⟩

/-- Witness for the amended C4 at a concrete validated input. -/
theorem c4_rows_in_input_order_witness :
    validate_response_schema ⟨some dFull⟩ = .ok () ∧
    dFull.time = some ["2021-01-01"] ∧
    (∀ e ∈ dFull.entries, e.2.length = (["2021-01-01"] : List String).length) ∧
    ∃ out, (process_data dFull).fst = .ok out ∧
      ∀ v ∈ VARIABLES, ∃ rows, out.lookup v = some rows ∧
        rows.map Row.timestamp = ["2021-01-01"] :=
  ⟨by decide, rfl, by decide,
    c4_rows_in_input_order dFull ["2021-01-01"] (by decide) rfl (by decide)⟩

/-- C4 counterexample: on a validated input whose dates arrive in descending
order, the emitted temperature rows keep that descending order — the final
row sequence is not sorted by parsed date ascending. -/
theorem c4_not_sorted_counterexample :
    validate_response_schema ⟨some dDesc⟩ = .ok () ∧
    ∃ out rows, (process_data dDesc).fst = .ok out ∧
      out.lookup "temperature_2m_mean" = some rows ∧
      rows.map Row.timestamp = ["2021-01-02", "2021-01-01"] ∧
      sortedByDateAsc rows = false := by
  refine ⟨by decide, ?_⟩
  refine ⟨_, _, process_ok_spec (by decide) rfl (by decide),
    lookup_map_self VARIABLES _ (by decide),
    specRowsFrom_map_timestamp _ 0, by decide⟩

/-- C3 (amended): for every validated input all of whose sequences have the
time sequence's length, the row emitted at each time index carries the
arithmetic mean of the collected values as `mean` and the population standard
deviation — square root of the squared deviations divided by the count — as
`std`; no rounding is applied. -/
theorem c3_mean_popstd_unrounded (d : RawDaily) (tss : List String)
    (hval : validate_response_schema ⟨some d⟩ = .ok ())
    (htime : d.time = some tss)
    (hlen : ∀ e ∈ d.entries, e.2.length = tss.length) :
    ∀ v ∈ VARIABLES, ∀ k, k < tss.length →
    ∃ out rows, (process_data d).fst = .ok out ∧ out.lookup v = some rows ∧
      (rows.getD k default).mean = listMean (specCollect v d.entries k) ∧
      (rows.getD k default).std = Real.sqrt (listPopVar (specCollect v d.entries k)) := by
  intro v hv k hk
  refine ⟨_, _, process_ok_spec hval htime hlen, lookup_map_self VARIABLES v hv, ?_, ?_⟩
  · rw [specRowsFrom_getD tss 0 k hk]
    simp
  · rw [specRowsFrom_getD tss 0 k hk]
    simp [Row.std]

/-- Witness for the amended C3 at a concrete validated input and index. -/
theorem c3_mean_popstd_unrounded_witness :
    validate_response_schema ⟨some dFull⟩ = .ok () ∧
    (∀ e ∈ dFull.entries, e.2.length = (["2021-01-01"] : List String).length) ∧
    "temperature_2m_mean" ∈ VARIABLES ∧ 0 < (["2021-01-01"] : List String).length ∧
    ∃ out rows, (process_data dFull).fst = .ok out ∧
      out.lookup "temperature_2m_mean" = some rows ∧
      (rows.getD 0 default).mean =
        listMean (specCollect "temperature_2m_mean" dFull.entries 0) ∧
      (rows.getD 0 default).std =
        Real.sqrt (listPopVar (specCollect "temperature_2m_mean" dFull.entries 0)) :=
  ⟨by decide, by decide, by decide, by decide,
    c3_mean_popstd_unrounded dFull ["2021-01-01"] (by decide) rfl (by decide)
      "temperature_2m_mean" (by decide) 0 (by decide)⟩

/-- C3 counterexample: on a validated input whose temperature readings
average to `1/7`, the emitted mean is exactly `1/7`, not the claimed value
rounded to 4 decimal places (`0.1429`). -/
theorem c3_no_rounding_counterexample :
    validate_response_schema ⟨some dSeventh⟩ = .ok () ∧
    ∃ out rows, (process_data dSeventh).fst = .ok out ∧
      out.lookup "temperature_2m_mean" = some rows ∧
      (rows.getD 0 default).mean ≠
        round4 (listMean (specCollect "temperature_2m_mean" dSeventh.entries 0)) := by
  refine ⟨by decide, ?_⟩
  refine ⟨_, _, process_ok_spec (by decide) rfl (by decide),
    lookup_map_self VARIABLES _ (by decide), ?_⟩
  rw [specRowsFrom_getD ["2021-01-01"] 0 0 (by decide)]
  have hc : specCollect "temperature_2m_mean" dSeventh.entries 0 =
      [1, 0, 0, 0, 0, 0, 0] := by rfl
  have hm : listMean [(1 : ℚ), 0, 0, 0, 0, 0, 0] = 1/7 := by
    norm_num [listMean]
  simp only [Nat.zero_add, hc, hm]
  rw [round4]
  norm_num [round_eq]

/-- C1: evaluating `process_data` on the unit test's input dictionary. The
aggregator groups per time index across model keys, not per calendar date:
each metric gets four rows whose means are the individual readings and whose
variance (squared std) is 0 — not two per-date rows with means `[12.5, 24]`
and stds `[3.5355, 5.6569]` as the repository's own test asserts. -/
theorem c1_process_data_on_test_input :
    (process_data testInput).fst = .ok
      [("temperature_2m_mean",
        [⟨"2021-01-01", 10, 0⟩, ⟨"2021-01-01", 15, 0⟩,
         ⟨"2021-01-02", 28, 0⟩, ⟨"2021-01-02", 20, 0⟩]),
       ("precipitation_sum",
        [⟨"2021-01-01", 0, 0⟩, ⟨"2021-01-01", 5, 0⟩,
         ⟨"2021-01-02", 2, 0⟩, ⟨"2021-01-02", 9, 0⟩]),
       ("soil_moisture_0_to_10cm_mean",
        [⟨"2021-01-01", 1/2, 0⟩, ⟨"2021-01-01", 1/5, 0⟩,
         ⟨"2021-01-02", 7/10, 0⟩, ⟨"2021-01-02", 3/5, 0⟩])] ∧
    ([⟨"2021-01-01", 10, 0⟩, ⟨"2021-01-01", 15, 0⟩,
      ⟨"2021-01-02", 28, 0⟩, ⟨"2021-01-02", 20, 0⟩] : List Row).map Row.mean ≠
      [25/2, 24] := by
  constructor
  · simp +decide [process_data, testInput, processVars, rowsForAux, collectVar,
      VARIABLES, listMean, listPopVar]
  · simp

/-- C7: null readings are replaced by 0 before averaging: with temperature
readings `[10]` and `[null]` at the only index, the collected values are
`[10, 0]` and the emitted mean is 5, not 10. -/
theorem c7_null_replaced_by_zero :
    specCollect "temperature_2m_mean" dNullDemo.entries 0 = [10, 0] ∧
    ∃ out rows, (process_data dNullDemo).fst = .ok out ∧
      out.lookup "temperature_2m_mean" = some rows ∧
      (rows.getD 0 default).mean = 5 ∧ (rows.getD 0 default).mean ≠ 10 := by
  refine ⟨rfl, [("temperature_2m_mean", [⟨"2021-01-01", 5, 25⟩]),
    ("precipitation_sum", []), ("soil_moisture_0_to_10cm_mean", [])],
    [⟨"2021-01-01", 5, 25⟩], ?_, rfl, rfl, by norm_num⟩
  simp +decide [process_data, dNullDemo, processVars, rowsForAux, collectVar,
    VARIABLES, listMean, listPopVar]
  norm_num

/-- C10: whenever exactly one key of the input matches a base metric's
prefix, every row emitted for that metric (when processing succeeds) carries
std 0 and, as mean, that key's reading at the row's time index with 0
substituted for null; rows appear one per time index. -/
theorem c10_single_model_rows (d : RawDaily) (tss : List String) (v : String)
    (e : String × List (Option ℚ)) (out : List (String × List Row)) (rows : List Row)
    (hv : v ∈ VARIABLES) (htime : d.time = some tss)
    (hone : d.entries.filter (fun en => startsWith v en.1) = [e])
    (hok : (process_data d).fst = .ok out)
    (hrows : out.lookup v = some rows) :
    rows.map Row.timestamp = tss ∧
    ∀ k, k < tss.length →
      (rows.getD k default).std = 0 ∧
      (rows.getD k default).mean = (e.2.getD k none).getD 0 := by
  have hcond : ¬(d.time = none ∧ d.entries = []) := by
    rintro ⟨h1, -⟩
    rw [htime] at h1
    cases h1
  have hpv : processVars d.entries tss VARIABLES = some out := by
    unfold process_data at hok
    rw [if_neg hcond] at hok
    simp only [htime] at hok
    rcases hq : processVars d.entries tss VARIABLES with _ | out'
    · simp only [hq] at hok
      cases hok
    · simp only [hq] at hok
      obtain rfl : out' = out := ProcResult.ok.inj hok
      rfl
  have hr : rowsForAux v d.entries 0 tss = some rows := by
    have := processVars_mem VARIABLES out hpv (v, rows) (lookup_some_mem out v rows hrows)
    simpa using this
  have hcol : ∀ k < tss.length,
      collectVar v k d.entries = some (specCollect v d.entries k) ∧
      specCollect v d.entries k ≠ [] := by
    intro k hk
    obtain ⟨l, hl⟩ := rowsForAux_some_collect tss 0 rows hr k hk
    rw [Nat.zero_add] at hl
    have hbound := collectVar_bound d.entries l hl
    refine ⟨collectVar_eq_spec d.entries hbound, ?_⟩
    unfold specCollect
    rw [hone]
    simp
  have hspec := rowsForAux_eq_spec tss 0
    (fun k hk => by rw [Nat.zero_add]; exact hcol k hk)
  rw [hr] at hspec
  obtain rfl : rows = specRowsFrom v d.entries 0 tss := Option.some.inj hspec
  refine ⟨specRowsFrom_map_timestamp tss 0, ?_⟩
  intro k hk
  have hsc : specCollect v d.entries k = [(e.2.getD k none).getD 0] := by
    unfold specCollect
    rw [hone]
    rfl
  rw [specRowsFrom_getD tss 0 k hk]
  constructor
  · show Row.std _ = 0
    unfold Row.std
    simp [hsc, listPopVar_singleton]
  · simp [hsc, listMean_singleton]

/-- Witness for C10 at a concrete input with a single temperature key. -/
theorem c10_single_model_rows_witness :
    dSingle.time = some ["2021-01-01", "2021-01-02"] ∧
    dSingle.entries.filter
      (fun en => startsWith "temperature_2m_mean" en.1) =
      [("temperature_2m_mean_A", [some 10, none])] ∧
    (process_data dSingle).fst = .ok
      [("temperature_2m_mean", [⟨"2021-01-01", 10, 0⟩, ⟨"2021-01-02", 0, 0⟩]),
       ("precipitation_sum", []), ("soil_moisture_0_to_10cm_mean", [])] ∧
    ([⟨"2021-01-01", (10 : ℚ), 0⟩, ⟨"2021-01-02", 0, 0⟩] : List Row).map Row.timestamp =
      ["2021-01-01", "2021-01-02"] ∧
    ∀ k, k < (["2021-01-01", "2021-01-02"] : List String).length →
      (([⟨"2021-01-01", (10 : ℚ), 0⟩, ⟨"2021-01-02", 0, 0⟩] : List Row).getD k default).std = 0 ∧
      (([⟨"2021-01-01", (10 : ℚ), 0⟩, ⟨"2021-01-02", 0, 0⟩] : List Row).getD k default).mean =
        ((([some 10, none] : List (Option ℚ))).getD k none).getD 0 := by
  have hok : (process_data dSingle).fst = .ok
      [("temperature_2m_mean", [⟨"2021-01-01", 10, 0⟩, ⟨"2021-01-02", 0, 0⟩]),
       ("precipitation_sum", []), ("soil_moisture_0_to_10cm_mean", [])] := by
    simp +decide [process_data, dSingle, processVars, rowsForAux, collectVar,
      VARIABLES, listMean, listPopVar]
  have h := c10_single_model_rows dSingle ["2021-01-01", "2021-01-02"]
    "temperature_2m_mean" ("temperature_2m_mean_A", [some 10, none])
    [("temperature_2m_mean", [⟨"2021-01-01", 10, 0⟩, ⟨"2021-01-02", 0, 0⟩]),
     ("precipitation_sum", []), ("soil_moisture_0_to_10cm_mean", [])]
    [⟨"2021-01-01", 10, 0⟩, ⟨"2021-01-02", 0, 0⟩]
    (by decide) rfl rfl hok rfl
  exact ⟨rfl, rfl, hok, h.1, h.2⟩

end Meteo
